import Mathlib

/-!
Verification of the IPTC fuzzing harnesses (`oss-fuzz/iptc_profile_advanced_fuzzer.cc`,
`oss-fuzz/iptc_profile_fuzzer.cc`, `oss-fuzz/utils.cc`).

The generator `CreateMalformedIPTCProfile` is embedded as a pure function on
`List Nat` (byte values); the C `size_t` cursor arithmetic only ever increments
under in-bounds guards, so plain `Nat` arithmetic is faithful.  A second,
`Option`-valued copy of the generator performs every buffer read through
`List.getElem?` and propagates `none` on any out-of-bounds read; refinement of
the total version by the optional one settles the memory-safety claim.
-/

set_option maxRecDepth 10000

namespace IPTCFuzz

/-- Cursor position after the dataset-byte read of one record
(`dataOffset++` happens only when `dataOffset < Size`). -/
def dsOff (data : List Nat) (off : Nat) : Nat :=
  if off < data.length then off + 1 else off

/-- Cursor position after the record-type-byte read of one record. -/
def recOff (data : List Nat) (off : Nat) : Nat :=
  if dsOff data off < data.length then dsOff data off + 1 else dsOff data off

/-- Cursor position after the length-field read of one record:
two bytes if at least two remain, one byte if exactly one remains, else none. -/
def lenOff (data : List Nat) (off : Nat) : Nat :=
  if recOff data off + 1 < data.length then recOff data off + 2
  else if recOff data off < data.length then recOff data off + 1
  else recOff data off

/-- The length value derived from the input bytes following the record-type
byte: big-endian 16-bit if two unread bytes remain, a single zero-extended
byte if one remains, else `0`. -/
def derivedLength (data : List Nat) (off : Nat) : Nat :=
  if recOff data off + 1 < data.length then
    data.getD (recOff data off) 0 * 256 + data.getD (recOff data off + 1) 0
  else if recOff data off < data.length then data.getD (recOff data off) 0
  else 0

/-- The declared length of record `i` starting at cursor `off`: the derived
length, overridden on the first record of a `Size > 4` input according to
`Data[3] % 4` (0 ↦ 0xFFFF, 1 ↦ 0xFFF0, 2 ↦ 0x7FFF, 3 ↦ unmodified). -/
def recLength (data : List Nat) (i off : Nat) : Nat :=
  if i = 0 ∧ 4 < data.length then
    if data.getD 3 0 % 4 = 0 then 65535
    else if data.getD 3 0 % 4 = 1 then 65520
    else if data.getD 3 0 % 4 = 2 then 32767
    else derivedLength data off
  else derivedLength data off

/-- `actualLength = min(length, Size - dataOffset)`: the number of real input
bytes copied into the record payload. -/
def recActual (data : List Nat) (i off : Nat) : Nat :=
  min (recLength data i off) (data.length - lenOff data off)

/-- The dataset byte: next unread input byte if available, else the constant 2. -/
def datasetByte (data : List Nat) (off : Nat) : Nat :=
  if off < data.length then data.getD off 0 else 2

/-- The record-type byte: next unread input byte if available, else the constant 5. -/
def recordByte (data : List Nat) (off : Nat) : Nat :=
  if dsOff data off < data.length then data.getD (dsOff data off) 0 else 5

/-- Real payload bytes of one record, copied from the unread input. -/
def recPayload (data : List Nat) (i off : Nat) : List Nat :=
  (data.drop (lenOff data off)).take (recActual data i off)

/-- Synthetic padding of one record: for `j = actualLength, …, length - 1`
the byte `'A' + (j % 26)`. -/
def recPadding (data : List Nat) (i off : Nat) : List Nat :=
  (List.range' (recActual data i off) (recLength data i off - recActual data i off)).map
    (fun j => 65 + j % 26)

/-- One iteration of the main record loop: the emitted bytes (sentinel 0x1C,
dataset, record type, two big-endian length bytes, payload, padding) and the
new cursor position. -/
def emitRecord (data : List Nat) (i off : Nat) : List Nat × Nat :=
  (28 :: datasetByte data off :: recordByte data off ::
      recLength data i off / 256 % 256 :: recLength data i off % 256 ::
      (recPayload data i off ++ recPadding data i off),
   lenOff data off + recActual data i off)

/-- The number of base pseudo-records to attempt: `(Data[0] % 10) + 1` when
`Size > 0`, else 1. -/
def numRecords (data : List Nat) : Nat :=
  if 0 < data.length then data.getD 0 0 % 10 + 1 else 1

/-- The main record loop (`for i < numRecords && dataOffset < Size`), with the
remaining iteration count as explicit fuel.  Each emitted record is returned as
`(record index, entry cursor, bytes)`; the second component is the final cursor. -/
def mainLoopAux (data : List Nat) : Nat → Nat → Nat → List (Nat × Nat × List Nat) × Nat
  | 0, _, off => ([], off)
  | fuel + 1, i, off =>
    if off < data.length then
      let r := emitRecord data i off
      let rest := mainLoopAux data fuel (i + 1) r.2
      ((i, off, r.1) :: rest.1, rest.2)
    else ([], off)

/-- The records emitted by the main loop and the cursor after it
(`numRecords` iterations attempted, starting at record 0, cursor 1). -/
def mainLoopRecords (data : List Nat) : List (Nat × Nat × List Nat) × Nat :=
  mainLoopAux data (numRecords data) 0 1

/-- The bytes emitted by the main record loop. -/
def mainLoopBytes (data : List Nat) : List Nat :=
  ((mainLoopRecords data).1.map (fun r => r.2.2)).flatten

/-- Orphan-sentinel injection (`Size > 5 && Data[4] % 4 == 0`): one sentinel
followed by up to 10 raw unread input bytes. -/
def gate1 (data : List Nat) (off : Nat) : List Nat × Nat :=
  if 5 < data.length ∧ data.getD 4 0 % 4 = 0 then
    let taken := (data.drop off).take 10
    (28 :: taken, off + taken.length)
  else ([], off)

/-- Overclaimed-length injection (`Size > 6 && Data[5] % 4 == 1`): a header
with declared length 1000 followed by at most 20 real input bytes. -/
def gate2 (data : List Nat) (off : Nat) : List Nat × Nat :=
  if 6 < data.length ∧ data.getD 5 0 % 4 = 1 then
    let taken := (data.drop off).take 20
    (28 :: 2 :: 5 :: 1000 / 256 % 256 :: 1000 % 256 :: taken, off + taken.length)
  else ([], off)

/-- Zero-length-with-trailing-data injection (`Size > 7 && Data[6] % 4 == 2`):
a header with declared length 0 followed by up to 10 real input bytes. -/
def gate3 (data : List Nat) (off : Nat) : List Nat × Nat :=
  if 7 < data.length ∧ data.getD 6 0 % 4 = 2 then
    let taken := (data.drop off).take 10
    (28 :: 2 :: 5 :: 0 :: 0 :: taken, off + taken.length)
  else ([], off)

/-- Sentinel-flooding injection (`Size > 8 && Data[7] % 4 == 3`): five
consecutive sentinels followed by up to 10 real input bytes. -/
def gate4 (data : List Nat) (off : Nat) : List Nat × Nat :=
  if 8 < data.length ∧ data.getD 7 0 % 4 = 3 then
    let taken := (data.drop off).take 10
    (28 :: 28 :: 28 :: 28 :: 28 :: taken, off + taken.length)
  else ([], off)

/-- The complete generator: main record loop followed by the four supplementary
malformation injections, the read cursor threaded through all of them. -/
def CreateMalformedIPTCProfile (data : List Nat) : List Nat :=
  let m := mainLoopRecords data
  let g1 := gate1 data m.2
  let g2 := gate2 data g1.2
  let g3 := gate3 data g2.2
  let g4 := gate4 data g3.2
  mainLoopBytes data ++ g1.1 ++ g2.1 ++ g3.1 ++ g4.1

/-! ### Option-valued copy of the generator

Every buffer access goes through `List.getElem?`; a `none` result (an
out-of-bounds read) aborts the whole computation. -/

/-- Read `n` consecutive bytes starting at `off`, failing on any
out-of-bounds access. -/
def readBytes? (data : List Nat) : Nat → Nat → Option (List Nat)
  | _, 0 => some []
  | off, n + 1 => do
    let b ← data[off]?
    let rest ← readBytes? data (off + 1) n
    pure (b :: rest)

/-- Optional-read copy of `datasetByte`. -/
def datasetByte? (data : List Nat) (off : Nat) : Option Nat :=
  if off < data.length then data[off]? else pure 2

/-- Optional-read copy of `recordByte`. -/
def recordByte? (data : List Nat) (off : Nat) : Option Nat :=
  if dsOff data off < data.length then data[dsOff data off]? else pure 5

/-- Optional-read copy of `derivedLength`. -/
def derivedLength? (data : List Nat) (off : Nat) : Option Nat :=
  if recOff data off + 1 < data.length then do
    let b1 ← data[recOff data off]?
    let b2 ← data[recOff data off + 1]?
    pure (b1 * 256 + b2)
  else if recOff data off < data.length then data[recOff data off]?
  else pure 0

/-- Optional-read copy of `recLength`. -/
def recLength? (data : List Nat) (i off : Nat) : Option Nat := do
  let d ← derivedLength? data off
  if i = 0 ∧ 4 < data.length then do
    let s ← data[3]?
    pure (if s % 4 = 0 then 65535 else if s % 4 = 1 then 65520
          else if s % 4 = 2 then 32767 else d)
  else pure d

/-- Optional-read copy of `emitRecord`. -/
def emitRecord? (data : List Nat) (i off : Nat) : Option (List Nat × Nat) := do
  let ds ← datasetByte? data off
  let rb ← recordByte? data off
  let len ← recLength? data i off
  let a := min len (data.length - lenOff data off)
  let payload ← readBytes? data (lenOff data off) a
  let padding := (List.range' a (len - a)).map (fun j => 65 + j % 26)
  pure (28 :: ds :: rb :: len / 256 % 256 :: len % 256 :: (payload ++ padding),
        lenOff data off + a)

/-- Optional-read copy of `numRecords`. -/
def numRecords? (data : List Nat) : Option Nat :=
  if 0 < data.length then do
    let b ← data[0]?
    pure (b % 10 + 1)
  else pure 1

/-- Optional-read copy of `mainLoopAux`. -/
def mainLoopAux? (data : List Nat) :
    Nat → Nat → Nat → Option (List (Nat × Nat × List Nat) × Nat)
  | 0, _, off => some ([], off)
  | fuel + 1, i, off =>
    if off < data.length then do
      let r ← emitRecord? data i off
      let rest ← mainLoopAux? data fuel (i + 1) r.2
      pure ((i, off, r.1) :: rest.1, rest.2)
    else some ([], off)

/-- Optional-read copy of `gate1`. -/
def gate1? (data : List Nat) (off : Nat) : Option (List Nat × Nat) :=
  if 5 < data.length then do
    let g ← data[4]?
    if g % 4 = 0 then do
      let taken ← readBytes? data off (min 10 (data.length - off))
      pure (28 :: taken, off + taken.length)
    else pure ([], off)
  else pure ([], off)

/-- Optional-read copy of `gate2`. -/
def gate2? (data : List Nat) (off : Nat) : Option (List Nat × Nat) :=
  if 6 < data.length then do
    let g ← data[5]?
    if g % 4 = 1 then do
      let taken ← readBytes? data off (min 20 (data.length - off))
      pure (28 :: 2 :: 5 :: 1000 / 256 % 256 :: 1000 % 256 :: taken, off + taken.length)
    else pure ([], off)
  else pure ([], off)

/-- Optional-read copy of `gate3`. -/
def gate3? (data : List Nat) (off : Nat) : Option (List Nat × Nat) :=
  if 7 < data.length then do
    let g ← data[6]?
    if g % 4 = 2 then do
      let taken ← readBytes? data off (min 10 (data.length - off))
      pure (28 :: 2 :: 5 :: 0 :: 0 :: taken, off + taken.length)
    else pure ([], off)
  else pure ([], off)

/-- Optional-read copy of `gate4`. -/
def gate4? (data : List Nat) (off : Nat) : Option (List Nat × Nat) :=
  if 8 < data.length then do
    let g ← data[7]?
    if g % 4 = 3 then do
      let taken ← readBytes? data off (min 10 (data.length - off))
      pure (28 :: 28 :: 28 :: 28 :: 28 :: taken, off + taken.length)
    else pure ([], off)
  else pure ([], off)

/-- Optional-read copy of the complete generator: any out-of-bounds buffer
read anywhere in the pass yields `none`. -/
def CreateMalformedIPTCProfileOpt (data : List Nat) : Option (List Nat) := do
  let n ← numRecords? data
  let m ← mainLoopAux? data n 0 1
  let g1 ← gate1? data m.2
  let g2 ← gate2? data g1.2
  let g3 ← gate3? data g2.2
  let g4 ← gate4? data g3.2
  pure (((m.1.map (fun r => r.2.2)).flatten) ++ g1.1 ++ g2.1 ++ g3.1 ++ g4.1)

/-! ### The harness entry points -/

/-- `IsInvalidSize` from `oss-fuzz/utils.cc`: a size is invalid when it is
below the given minimum or above 8192. -/
def IsInvalidSize (size min : Nat) : Bool :=
  if size < min then true
  else if 8192 < size then true
  else false

/-- The size guard of both fuzzer entry points:
`IsInvalidSize(Size, MIN_IPTC_SIZE) || Size > MAX_IPTC_SIZE` with
`MIN_IPTC_SIZE = 8` and `MAX_IPTC_SIZE = 65536`. -/
def entryGuard (size : Nat) : Bool :=
  IsInvalidSize size 8 || decide (65536 < size)

/-- Modelled from the spec: the single kind of error condition the external
library raises across the harness boundary (`Magick::Exception`). -/
inductive MagickError
  | ex

/-- Modelled from the spec: outcomes of the external library calls made by the
advanced fuzzer entry point (image construction, profile attachment, and the
four probe blocks).  Each call either succeeds or raises a library error. -/
structure MagickOps where
  createImage : Except MagickError Unit
  setIptcProfile : Except MagickError Unit
  writeReadRoundTrip : Except MagickError Unit
  identifyImage : Except MagickError Unit
  cloneImage : Except MagickError Unit
  multiProfile : Except MagickError Unit

/-- Modelled from the spec: outcomes of the external library calls made by the
basic fuzzer entry point. -/
structure BasicMagickOps where
  createImage : Except MagickError Unit
  setIptcProfile : Except MagickError Unit
  writeReadRoundTrip : Except MagickError Unit
  attributeQuery : Except MagickError Unit

/-- An inner `try { … } catch (Magick::Exception &) { }` block: the error is
discarded and execution continues. -/
def caught (m : Except MagickError Unit) : Except MagickError Unit :=
  match m with
  | .ok _ => .ok ()
  | .error _ => .ok ()

namespace Advanced

/-- The advanced fuzzer entry point: size gate, then the probe sequence inside
an outer catch-all; each probe has its own inner catch.  The generated profile
itself is the pure `CreateMalformedIPTCProfile`. -/
def LLVMFuzzerTestOneInput (data : List Nat) (ops : MagickOps) :
    Except MagickError Int :=
  if entryGuard data.length then .ok 0
  else
    match (do
        ops.createImage
        let _iptcProfile := CreateMalformedIPTCProfile data
        ops.setIptcProfile
        caught ops.writeReadRoundTrip
        caught ops.identifyImage
        caught ops.cloneImage
        caught ops.multiProfile : Except MagickError Unit) with
    | .ok _ => .ok 0
    | .error _ => .ok 0

end Advanced

namespace Basic

/-- The basic fuzzer entry point: size gate, then profile attachment and two
probe blocks inside an outer catch-all. -/
def LLVMFuzzerTestOneInput (data : List Nat) (ops : BasicMagickOps) :
    Except MagickError Int :=
  if entryGuard data.length then .ok 0
  else
    match (do
        ops.createImage
        ops.setIptcProfile
        caught ops.writeReadRoundTrip
        caught ops.attributeQuery : Except MagickError Unit) with
    | .ok _ => .ok 0
    | .error _ => .ok 0

end Basic

/-! ### Basic facts about the embedding -/

theorem getD_lt (data : List Nat) (hb : ∀ b ∈ data, b < 256) (i : Nat) :
    data.getD i 0 < 256 := by
  rcases h : data[i]? with _ | b
  · simp [List.getD_eq_getElem?_getD, h]
  · rcases List.getElem?_eq_some.1 h with ⟨hlt, he⟩
    have hm : b ∈ data := he ▸ List.getElem_mem hlt
    simpa [List.getD_eq_getElem?_getD, h] using hb b hm

theorem getElem?_eq_some_getD (data : List Nat) (i : Nat) (h : i < data.length) :
    data[i]? = some (data.getD i 0) := by
  simp [List.getD_eq_getElem?_getD, List.getElem?_eq_getElem h]

theorem take_min_length (l : List Nat) (n : Nat) :
    l.take (min n l.length) = l.take n := by
  rcases Nat.le_total n l.length with h | h
  · rw [Nat.min_eq_left h]
  · rw [Nat.min_eq_right h, List.take_length, List.take_of_length_le h]

theorem le_dsOff (data : List Nat) (off : Nat) : off ≤ dsOff data off := by
  unfold dsOff; split <;> omega

theorem le_recOff (data : List Nat) (off : Nat) : off ≤ recOff data off := by
  have := le_dsOff data off
  unfold recOff; split <;> omega

theorem le_lenOff (data : List Nat) (off : Nat) : off ≤ lenOff data off := by
  have := le_recOff data off
  unfold lenOff; split <;> [omega; (split <;> omega)]

theorem dsOff_le_length (data : List Nat) (off : Nat) (h : off ≤ data.length) :
    dsOff data off ≤ data.length := by
  unfold dsOff; split <;> omega

theorem recOff_le_length (data : List Nat) (off : Nat) (h : off ≤ data.length) :
    recOff data off ≤ data.length := by
  have := dsOff_le_length data off h
  unfold recOff; split <;> omega

theorem lenOff_le_length (data : List Nat) (off : Nat) (h : off ≤ data.length) :
    lenOff data off ≤ data.length := by
  have := recOff_le_length data off h
  unfold lenOff; split <;> [omega; (split <;> omega)]

theorem recPayload_length (data : List Nat) (i off : Nat) :
    (recPayload data i off).length = recActual data i off := by
  simp only [recPayload, recActual, List.length_take, List.length_drop]
  omega

theorem recPadding_length (data : List Nat) (i off : Nat) :
    (recPadding data i off).length = recLength data i off - recActual data i off := by
  simp [recPadding]

theorem recActual_le (data : List Nat) (i off : Nat) :
    recActual data i off ≤ recLength data i off :=
  Nat.min_le_left _ _

theorem emitRecord_length (data : List Nat) (i off : Nat) :
    (emitRecord data i off).1.length = 5 + recLength data i off := by
  have h1 := recPayload_length data i off
  have h2 := recPadding_length data i off
  have h3 := recActual_le data i off
  simp only [emitRecord, List.length_cons, List.length_append]
  omega

theorem emitRecord_le_snd (data : List Nat) (i off : Nat) :
    off ≤ (emitRecord data i off).2 := by
  have := le_lenOff data off
  simp only [emitRecord]
  omega

theorem recLength_lt (data : List Nat) (i off : Nat) (hb : ∀ b ∈ data, b < 256) :
    recLength data i off < 65536 := by
  have h1 := getD_lt data hb (recOff data off)
  have h2 := getD_lt data hb (recOff data off + 1)
  unfold recLength derivedLength
  split
  · split
    · omega
    · split
      · omega
      · split
        · omega
        · split <;> [omega; (split <;> omega)]
  · split <;> [omega; (split <;> omega)]

/-! ### The optional-read copy refines the total generator -/

theorem readBytes?_eq (data : List Nat) :
    ∀ (n off : Nat), off + n ≤ data.length →
      readBytes? data off n = some ((data.drop off).take n) := by
  intro n
  induction n with
  | zero => intro off _; simp [readBytes?]
  | succ n ih =>
    intro off h
    have hofflt : off < data.length := by omega
    rw [readBytes?, getElem?_eq_some_getD data off hofflt, ih (off + 1) (by omega)]
    simp only [Option.bind_eq_bind, Option.some_bind, Option.pure_def, Option.some.injEq]
    rw [List.drop_eq_getElem_cons hofflt, List.take_succ_cons]
    simp [List.getD_eq_getElem?_getD, List.getElem?_eq_getElem hofflt]

theorem datasetByte?_eq (data : List Nat) (off : Nat) :
    datasetByte? data off = some (datasetByte data off) := by
  unfold datasetByte? datasetByte
  split
  · exact getElem?_eq_some_getD data off (by assumption)
  · rfl

theorem recordByte?_eq (data : List Nat) (off : Nat) :
    recordByte? data off = some (recordByte data off) := by
  unfold recordByte? recordByte
  split
  · exact getElem?_eq_some_getD data (dsOff data off) (by assumption)
  · rfl

theorem derivedLength?_eq (data : List Nat) (off : Nat) :
    derivedLength? data off = some (derivedLength data off) := by
  unfold derivedLength? derivedLength
  split
  · rw [getElem?_eq_some_getD data (recOff data off) (by omega),
      getElem?_eq_some_getD data (recOff data off + 1) (by assumption)]
    rfl
  · split
    · exact getElem?_eq_some_getD data (recOff data off) (by assumption)
    · rfl

theorem recLength?_eq (data : List Nat) (i off : Nat) :
    recLength? data i off = some (recLength data i off) := by
  unfold recLength? recLength
  rw [derivedLength?_eq]
  simp only [Option.bind_eq_bind, Option.some_bind]
  split
  · next h =>
    rw [getElem?_eq_some_getD data 3 (by omega)]
    rfl
  · rfl

theorem emitRecord?_eq (data : List Nat) (i off : Nat) :
    emitRecord? data i off = some (emitRecord data i off) := by
  unfold emitRecord? emitRecord
  rw [datasetByte?_eq, recordByte?_eq, recLength?_eq]
  simp only [Option.bind_eq_bind, Option.some_bind]
  have hpay : readBytes? data (lenOff data off)
      (min (recLength data i off) (data.length - lenOff data off))
      = some (recPayload data i off) := by
    rcases Nat.le_total (lenOff data off) data.length with h | h
    · exact readBytes?_eq data _ _ (by omega)
    · have h0 : data.length - lenOff data off = 0 := by omega
      rw [h0, Nat.min_zero]
      simp [readBytes?, recPayload, recActual, h0]
  rw [hpay]
  simp [recActual, recPadding]

theorem numRecords?_eq (data : List Nat) :
    numRecords? data = some (numRecords data) := by
  unfold numRecords? numRecords
  split
  · rw [getElem?_eq_some_getD data 0 (by assumption)]
    rfl
  · rfl

theorem mainLoopAux?_eq (data : List Nat) :
    ∀ (fuel i off : Nat),
      mainLoopAux? data fuel i off = some (mainLoopAux data fuel i off) := by
  intro fuel
  induction fuel with
  | zero => intro i off; rfl
  | succ fuel ih =>
    intro i off
    rw [mainLoopAux?, mainLoopAux]
    split
    · rw [emitRecord?_eq]
      simp only [Option.bind_eq_bind, Option.some_bind]
      rw [ih]
      rfl
    · rfl

theorem gateTaken_eq (data : List Nat) (off k : Nat) :
    readBytes? data off (min k (data.length - off))
      = some ((data.drop off).take k) := by
  rcases Nat.le_total off data.length with h | h
  · rw [readBytes?_eq data _ _ (by omega)]
    have : (data.drop off).take (min k (data.length - off))
        = (data.drop off).take k := by
      have hl : (data.drop off).length = data.length - off := by simp
      calc (data.drop off).take (min k (data.length - off))
          = (data.drop off).take (min k (data.drop off).length) := by rw [hl]
        _ = (data.drop off).take k := take_min_length _ _
    rw [this]
  · have h0 : data.length - off = 0 := by omega
    rw [h0, Nat.min_zero]
    have hd : data.drop off = [] := List.drop_eq_nil_of_le h
    simp [readBytes?, hd]

theorem gateTaken_length (data : List Nat) (off k : Nat) :
    ((data.drop off).take k).length = min k (data.length - off) := by
  simp

theorem gate1?_eq (data : List Nat) (off : Nat) :
    gate1? data off = some (gate1 data off) := by
  unfold gate1? gate1
  split
  · next h5 =>
    rw [getElem?_eq_some_getD data 4 (by omega)]
    simp only [Option.bind_eq_bind, Option.some_bind]
    split
    · next hg =>
      rw [gateTaken_eq data off 10]
      simp only [Option.bind_eq_bind, Option.some_bind]
      rw [if_pos ⟨h5, hg⟩]
      rfl
    · next hg =>
      rw [if_neg (by tauto)]
      rfl
  · next h5 =>
    rw [if_neg (by tauto)]
    rfl

theorem gate2?_eq (data : List Nat) (off : Nat) :
    gate2? data off = some (gate2 data off) := by
  unfold gate2? gate2
  split
  · next h5 =>
    rw [getElem?_eq_some_getD data 5 (by omega)]
    simp only [Option.bind_eq_bind, Option.some_bind]
    split
    · next hg =>
      rw [gateTaken_eq data off 20]
      simp only [Option.bind_eq_bind, Option.some_bind]
      rw [if_pos ⟨h5, hg⟩]
      rfl
    · next hg =>
      rw [if_neg (by tauto)]
      rfl
  · next h5 =>
    rw [if_neg (by tauto)]
    rfl

theorem gate3?_eq (data : List Nat) (off : Nat) :
    gate3? data off = some (gate3 data off) := by
  unfold gate3? gate3
  split
  · next h5 =>
    rw [getElem?_eq_some_getD data 6 (by omega)]
    simp only [Option.bind_eq_bind, Option.some_bind]
    split
    · next hg =>
      rw [gateTaken_eq data off 10]
      simp only [Option.bind_eq_bind, Option.some_bind]
      rw [if_pos ⟨h5, hg⟩]
      rfl
    · next hg =>
      rw [if_neg (by tauto)]
      rfl
  · next h5 =>
    rw [if_neg (by tauto)]
    rfl

theorem gate4?_eq (data : List Nat) (off : Nat) :
    gate4? data off = some (gate4 data off) := by
  unfold gate4? gate4
  split
  · next h5 =>
    rw [getElem?_eq_some_getD data 7 (by omega)]
    simp only [Option.bind_eq_bind, Option.some_bind]
    split
    · next hg =>
      rw [gateTaken_eq data off 10]
      simp only [Option.bind_eq_bind, Option.some_bind]
      rw [if_pos ⟨h5, hg⟩]
      rfl
    · next hg =>
      rw [if_neg (by tauto)]
      rfl
  · next h5 =>
    rw [if_neg (by tauto)]
    rfl

/-! ### Structure of the main record loop -/

theorem mainLoopAux_mem (data : List Nat) :
    ∀ (fuel i off : Nat), ∀ r ∈ (mainLoopAux data fuel i off).1,
      r.2.1 < data.length ∧ r.2.2 = (emitRecord data r.1 r.2.1).1 := by
  intro fuel
  induction fuel with
  | zero => intro i off r hr; simp [mainLoopAux] at hr
  | succ fuel ih =>
    intro i off r hr
    rw [mainLoopAux] at hr
    split at hr
    · next hlt =>
      simp only [List.mem_cons] at hr
      rcases hr with rfl | hr
      · exact ⟨hlt, rfl⟩
      · exact ih _ _ r hr
    · simp at hr

theorem mainLoopAux_length_le (data : List Nat) :
    ∀ (fuel i off : Nat), (mainLoopAux data fuel i off).1.length ≤ fuel := by
  intro fuel
  induction fuel with
  | zero => intro i off; simp [mainLoopAux]
  | succ fuel ih =>
    intro i off
    rw [mainLoopAux]
    split
    · simpa using Nat.succ_le_succ (ih _ _)
    · simp

theorem mainLoopAux_le_snd (data : List Nat) :
    ∀ (fuel i off : Nat), off ≤ (mainLoopAux data fuel i off).2 := by
  intro fuel
  induction fuel with
  | zero => intro i off; simp [mainLoopAux]
  | succ fuel ih =>
    intro i off
    rw [mainLoopAux]
    split
    · exact le_trans (emitRecord_le_snd data i off) (ih _ _)
    · simp

theorem mainLoopAux_bytes_le (data : List Nat) (hb : ∀ b ∈ data, b < 256) :
    ∀ (fuel i off : Nat),
      (((mainLoopAux data fuel i off).1.map (fun r => r.2.2)).flatten).length
        ≤ fuel * 65540 := by
  intro fuel
  induction fuel with
  | zero => intro i off; simp [mainLoopAux]
  | succ fuel ih =>
    intro i off
    rw [mainLoopAux]
    split
    · simp only [List.map_cons, List.flatten_cons, List.length_append]
      have h1 : (emitRecord data i off).1.length ≤ 65540 := by
        rw [emitRecord_length]
        have := recLength_lt data i off hb
        omega
      have h2 := ih (i + 1) (emitRecord data i off).2
      omega
    · simp

theorem numRecords_le (data : List Nat) : numRecords data ≤ 10 := by
  unfold numRecords
  split <;> omega

theorem numRecords_pos (data : List Nat) : ∃ k, numRecords data = k + 1 := by
  unfold numRecords
  split
  · exact ⟨data.getD 0 0 % 10, rfl⟩
  · exact ⟨0, rfl⟩

theorem gate1_length_le (data : List Nat) (off : Nat) :
    (gate1 data off).1.length ≤ 11 := by
  unfold gate1
  split <;> simp

theorem gate2_length_le (data : List Nat) (off : Nat) :
    (gate2 data off).1.length ≤ 25 := by
  unfold gate2
  split <;> simp

theorem gate3_length_le (data : List Nat) (off : Nat) :
    (gate3 data off).1.length ≤ 15 := by
  unfold gate3
  split <;> simp

theorem gate4_length_le (data : List Nat) (off : Nat) :
    (gate4 data off).1.length ≤ 15 := by
  unfold gate4
  split <;> simp

/-- For any input longer than one byte the output starts with the bytes of the
first base record (record index 0, entry cursor 1). -/
theorem create_profile_first_record (data : List Nat) (h1 : 1 < data.length) :
    ∃ t, CreateMalformedIPTCProfile data = (emitRecord data 0 1).1 ++ t := by
  obtain ⟨k, hk⟩ := numRecords_pos data
  unfold CreateMalformedIPTCProfile mainLoopBytes mainLoopRecords
  rw [hk, mainLoopAux, if_pos h1]
  simp only [List.map_cons, List.flatten_cons, List.append_assoc]
  exact ⟨_, rfl⟩

/-! ### Claim theorems -/

/-- **C1.** For every input, the optional-read copy of
`CreateMalformedIPTCProfile` — in which every buffer access is a
`List.getElem?` read and any out-of-bounds read aborts with `none` — succeeds
and returns exactly the output of the total embedding: the out-of-bounds
branch is unreachable for all inputs, including the empty one. -/
theorem create_profile_never_reads_out_of_bounds (data : List Nat) :
    CreateMalformedIPTCProfileOpt data = some (CreateMalformedIPTCProfile data) := by
  unfold CreateMalformedIPTCProfileOpt CreateMalformedIPTCProfile
  rw [numRecords?_eq]
  simp only [Option.bind_eq_bind, Option.some_bind]
  rw [mainLoopAux?_eq]
  simp only [Option.some_bind]
  rw [gate1?_eq]
  simp only [Option.some_bind]
  rw [gate2?_eq]
  simp only [Option.some_bind]
  rw [gate3?_eq]
  simp only [Option.some_bind]
  rw [gate4?_eq]
  simp only [Option.some_bind, Option.pure_def, Option.some.injEq]
  simp [mainLoopBytes, mainLoopRecords]

/-- **C2.** For every byte input with `size > 4`, the two big-endian length
bytes of the first base record are determined by `data[3] mod 4`:
0 ↦ `0xFFFF`, 1 ↦ `0xFFF0`, 2 ↦ `0x7FFF`, and 3 ↦ the length derived from the
two input bytes following the record-type byte (which, at `size > 4`, is
always the big-endian 16-bit value `data[3]·256 + data[4]`). -/
theorem first_record_length_override (data : List Nat) (hb : ∀ b ∈ data, b < 256)
    (h4 : 4 < data.length) :
    (data.getD 3 0 % 4 = 0 →
        (CreateMalformedIPTCProfile data)[3]? = some 255 ∧
        (CreateMalformedIPTCProfile data)[4]? = some 255) ∧
    (data.getD 3 0 % 4 = 1 →
        (CreateMalformedIPTCProfile data)[3]? = some 255 ∧
        (CreateMalformedIPTCProfile data)[4]? = some 240) ∧
    (data.getD 3 0 % 4 = 2 →
        (CreateMalformedIPTCProfile data)[3]? = some 127 ∧
        (CreateMalformedIPTCProfile data)[4]? = some 255) ∧
    (data.getD 3 0 % 4 = 3 →
        (CreateMalformedIPTCProfile data)[3]? = some (data.getD 3 0) ∧
        (CreateMalformedIPTCProfile data)[4]? = some (data.getD 4 0) ∧
        derivedLength data 1 = data.getD 3 0 * 256 + data.getD 4 0) := by
  obtain ⟨t, ht⟩ := create_profile_first_record data (by omega)
  have hb3 : (CreateMalformedIPTCProfile data)[3]?
      = some (recLength data 0 1 / 256 % 256) := by
    rw [ht]; simp [emitRecord]
  have hb4 : (CreateMalformedIPTCProfile data)[4]?
      = some (recLength data 0 1 % 256) := by
    rw [ht]; simp [emitRecord]
  have hds : dsOff data 1 = 2 := by
    unfold dsOff; rw [if_pos (by omega : 1 < data.length)]
  have hrec : recOff data 1 = 3 := by
    unfold recOff; rw [hds, if_pos (by omega : 2 < data.length)]
  have hder : derivedLength data 1 = data.getD 3 0 * 256 + data.getD 4 0 := by
    unfold derivedLength
    rw [hrec, if_pos (by omega : 3 + 1 < data.length)]
  refine ⟨fun hm => ?_, fun hm => ?_, fun hm => ?_, fun hm => ?_⟩
  · have hrl : recLength data 0 1 = 65535 := by
      unfold recLength; rw [if_pos ⟨rfl, h4⟩, if_pos hm]
    rw [hb3, hb4, hrl]
    exact ⟨rfl, rfl⟩
  · have hrl : recLength data 0 1 = 65520 := by
      unfold recLength
      rw [if_pos ⟨rfl, h4⟩, if_neg (by omega), if_pos hm]
    rw [hb3, hb4, hrl]
    exact ⟨rfl, rfl⟩
  · have hrl : recLength data 0 1 = 32767 := by
      unfold recLength
      rw [if_pos ⟨rfl, h4⟩, if_neg (by omega), if_neg (by omega), if_pos hm]
    rw [hb3, hb4, hrl]
    exact ⟨rfl, rfl⟩
  · have hrl : recLength data 0 1 = derivedLength data 1 := by
      unfold recLength
      rw [if_pos ⟨rfl, h4⟩, if_neg (by omega), if_neg (by omega), if_neg (by omega)]
    have hx := getD_lt data hb 3
    have hy := getD_lt data hb 4
    refine ⟨?_, ?_, hder⟩
    · rw [hb3, hrl, hder]
      simp only [Option.some.injEq]
      omega
    · rw [hb4, hrl, hder]
      simp only [Option.some.injEq]
      omega

/-- Witness for C2 at the concrete input `[0,0,0,3,0,7]` (`data[3] mod 4 = 3`):
the emitted length bytes are `3` and `0`, the derived big-endian length. -/
theorem first_record_length_override_witness :
    (∀ b ∈ [0, 0, 0, 3, 0, 7], b < 256) ∧ 4 < ([0, 0, 0, 3, 0, 7] : List Nat).length ∧
    (CreateMalformedIPTCProfile [0, 0, 0, 3, 0, 7])[3]?
      = some (([0, 0, 0, 3, 0, 7] : List Nat).getD 3 0) :=
  ⟨by decide, by decide,
    ((first_record_length_override [0, 0, 0, 3, 0, 7] (by decide) (by decide)).2.2.2
      (by decide)).1⟩

/-- **C4.** For every byte input, the main loop emits at most 10 base records,
and the total output length never exceeds `10 × (3 + 2 + 65535)` plus the 66
bytes that the four supplementary injections can contribute at most. -/
theorem main_loop_and_output_bounded (data : List Nat) (hb : ∀ b ∈ data, b < 256) :
    (mainLoopRecords data).1.length ≤ 10 ∧
    (CreateMalformedIPTCProfile data).length ≤ 10 * (3 + 2 + 65535) + 66 := by
  constructor
  · exact le_trans (mainLoopAux_length_le data _ _ _) (numRecords_le data)
  · have hm : (mainLoopBytes data).length ≤ 10 * 65540 := by
      unfold mainLoopBytes mainLoopRecords
      exact le_trans (mainLoopAux_bytes_le data hb _ 0 1)
        (Nat.mul_le_mul_right 65540 (numRecords_le data))
    have h1 := gate1_length_le data (mainLoopRecords data).2
    have h2 := gate2_length_le data (gate1 data (mainLoopRecords data).2).2
    have h3 := gate3_length_le data
      (gate2 data (gate1 data (mainLoopRecords data).2).2).2
    have h4 := gate4_length_le data
      (gate3 data (gate2 data (gate1 data (mainLoopRecords data).2).2).2).2
    simp only [CreateMalformedIPTCProfile, List.length_append]
    omega

/-- Witness for C4 at the empty input. -/
theorem main_loop_and_output_bounded_witness :
    (∀ b ∈ ([] : List Nat), b < 256) ∧
    ((mainLoopRecords ([] : List Nat)).1.length ≤ 10 ∧
      (CreateMalformedIPTCProfile ([] : List Nat)).length
        ≤ 10 * (3 + 2 + 65535) + 66) :=
  ⟨by decide, main_loop_and_output_bounded [] (by decide)⟩

/-- **C5.** In every base record emitted by the main loop, the number of bytes
following the two length bytes (real payload plus synthetic padding) equals
the declared length encoded big-endian in those two bytes: the whole record is
`5 + declared` bytes long. -/
theorem record_payload_backs_declared_length (data : List Nat)
    (hb : ∀ b ∈ data, b < 256) :
    ∀ r ∈ (mainLoopRecords data).1,
      r.2.2.length = 5 + (r.2.2.getD 3 0 * 256 + r.2.2.getD 4 0) := by
  intro r hr
  obtain ⟨hlt, hbytes⟩ := mainLoopAux_mem data _ _ _ r hr
  have hlen := recLength_lt data r.1 r.2.1 hb
  rw [hbytes, emitRecord_length]
  simp only [emitRecord, List.getD_cons_succ, List.getD_cons_zero]
  omega

/-- Witness for C5: the single record generated from `[0,7,7,2]` is
`[28,7,7,0,2,65,66]`, of length `5 + 2` with declared length `0·256 + 2`. -/
theorem record_payload_backs_declared_length_witness :
    (∀ b ∈ [0, 7, 7, 2], b < 256) ∧
    (0, 1, [28, 7, 7, 0, 2, 65, 66]) ∈ (mainLoopRecords [0, 7, 7, 2]).1 ∧
    ([28, 7, 7, 0, 2, 65, 66] : List Nat).length
      = 5 + (([28, 7, 7, 0, 2, 65, 66] : List Nat).getD 3 0 * 256
              + ([28, 7, 7, 0, 2, 65, 66] : List Nat).getD 4 0) :=
  ⟨by decide, by decide,
    record_payload_backs_declared_length [0, 7, 7, 2] (by decide)
      (0, 1, [28, 7, 7, 0, 2, 65, 66]) (by decide)⟩

/-- **C10.** In every base record emitted by the main loop, the dataset byte is
copied from an unread input byte (the loop is only entered while the cursor is
strictly inside the input, so the fallback constant 2 is never used): the
record's second byte equals the input byte at the record's entry cursor. -/
theorem dataset_byte_never_falls_back (data : List Nat) :
    ∀ r ∈ (mainLoopRecords data).1,
      r.2.1 < data.length ∧ r.2.2[1]? = data[r.2.1]? := by
  intro r hr
  obtain ⟨hlt, hbytes⟩ := mainLoopAux_mem data _ _ _ r hr
  refine ⟨hlt, ?_⟩
  rw [hbytes]
  simp only [emitRecord, List.getElem?_cons_succ, List.getElem?_cons_zero]
  rw [datasetByte, if_pos hlt]
  exact (getElem?_eq_some_getD data _ hlt).symm

/-- Witness for C10: the record generated from `[5,9]` starts at cursor 1 and
its dataset byte is `9 = data[1]`. -/
theorem dataset_byte_never_falls_back_witness :
    (0, 1, [28, 9, 5, 0, 0]) ∈ (mainLoopRecords [5, 9]).1 ∧
    (1 < ([5, 9] : List Nat).length ∧
      ([28, 9, 5, 0, 0] : List Nat)[1]? = ([5, 9] : List Nat)[1]?) :=
  ⟨by decide,
    dataset_byte_never_falls_back [5, 9] (0, 1, [28, 9, 5, 0, 0]) (by decide)⟩

/-- **C3 (counterexample).** For the empty input the output is NOT the five
fixed bytes `[0x1C, 2, 5, 0, 0]` of one default record: the loop body also
requires `dataOffset < Size`, and the cursor starts at 1 ≥ 0. -/
theorem empty_input_record_cex :
    CreateMalformedIPTCProfile [] ≠ [28, 2, 5, 0, 0] := by decide

/-- **C3 (amended).** For the empty input exactly one base pseudo-record is
attempted (`numRecords = 1`), but since the loop is entered only while the
cursor (starting at 1) is strictly below `size`, no record is emitted and the
output is empty. -/
theorem empty_input_record :
    numRecords [] = 1 ∧ CreateMalformedIPTCProfile [] = [] := by decide

/-- Splitting the first five header bytes off an emitted record. -/
theorem emitRecord_split (data : List Nat) (i off : Nat) :
    (emitRecord data i off).1
      = [28, datasetByte data off, recordByte data off,
          recLength data i off / 256 % 256, recLength data i off % 256]
        ++ (recPayload data i off ++ recPadding data i off) := rfl

/-- **C6 (counterexample).** In the sole base record of `[0,0,0,3,0,7]` the
real payload is one byte, so the first padding byte sits at payload index 1
(profile index 6) and equals `'B' = 66`, not `'A' + (0 % 26) = 65` as the
claim's relative indexing predicts. -/
theorem padding_pattern_cex :
    recActual [0, 0, 0, 3, 0, 7] 0 1 = 1 ∧
    1 < recLength [0, 0, 0, 3, 0, 7] 0 1 ∧
    (CreateMalformedIPTCProfile [0, 0, 0, 3, 0, 7])[6]? = some 66 ∧
    (CreateMalformedIPTCProfile [0, 0, 0, 3, 0, 7])[6]? ≠ some (65 + 0 % 26) := by
  refine ⟨by decide, by decide, by decide, by decide⟩

/-- **C6 (amended).** Whenever a base record's declared length exceeds the
available real bytes, the padding byte at absolute payload index `j`
(`actualLength ≤ j < length`) equals `'A' + (j % 26)`: the pattern index
continues from the real-payload count instead of restarting at zero. -/
theorem padding_pattern (data : List Nat) (i off j : Nat)
    (hj1 : recActual data i off ≤ j) (hj2 : j < recLength data i off) :
    (emitRecord data i off).1[5 + j]? = some (65 + j % 26) := by
  rw [emitRecord_split,
    List.getElem?_append_right (by simp : ([28, datasetByte data off,
      recordByte data off, recLength data i off / 256 % 256,
      recLength data i off % 256]).length ≤ 5 + j)]
  simp only [List.length_cons, List.length_nil]
  rw [show 5 + j - (0 + 1 + 1 + 1 + 1 + 1) = j by omega]
  rw [List.getElem?_append_right (by rw [recPayload_length]; omega)]
  rw [recPayload_length]
  unfold recPadding
  rw [List.getElem?_map,
    List.getElem?_range' _ _ (by omega : j - recActual data i off
      < recLength data i off - recActual data i off)]
  simp only [Option.map_some']
  congr 1
  omega

/-- Witness for the amended C6: in the record of `[0,0,0,3,0,7]` the padding
byte at payload index 1 is `'A' + (1 % 26) = 66`. -/
theorem padding_pattern_witness :
    recActual [0, 0, 0, 3, 0, 7] 0 1 ≤ 1 ∧ 1 < recLength [0, 0, 0, 3, 0, 7] 0 1 ∧
    (emitRecord [0, 0, 0, 3, 0, 7] 0 1).1[5 + 1]? = some (65 + 1 % 26) :=
  ⟨by decide, by decide,
    padding_pattern [0, 0, 0, 3, 0, 7] 0 1 1 (by decide) (by decide)⟩

/-- **C8.** Both fuzzer entry points return exactly 0 and never let a library
error escape: for every input and every behavior of the external library calls
the result is `Except.ok 0`, never `Except.error`. -/
theorem entry_points_return_zero (data : List Nat) (ops : MagickOps)
    (bops : BasicMagickOps) :
    Advanced.LLVMFuzzerTestOneInput data ops = Except.ok 0 ∧
    Basic.LLVMFuzzerTestOneInput data bops = Except.ok 0 := by
  constructor
  · unfold Advanced.LLVMFuzzerTestOneInput
    split
    · rfl
    · rcases ops with ⟨c, s, w, idf, cl, mp⟩
      cases c <;> cases s <;> cases w <;> cases idf <;> cases cl <;> cases mp <;> rfl
  · unfold Basic.LLVMFuzzerTestOneInput
    split
    · rfl
    · rcases bops with ⟨c, s, w, a⟩
      cases c <;> cases s <;> cases w <;> cases a <;> rfl

/-- **C9.** The size guard of both entry points rejects exactly the sizes
below 8 or above 8192; the additional `size > 65536` comparison never binds,
because `IsInvalidSize` already rejects every size above 8192. -/
theorem entry_guard_effective_window (size : Nat) :
    entryGuard size = IsInvalidSize size 8 ∧
    (entryGuard size = true ↔ size < 8 ∨ 8192 < size) := by
  unfold entryGuard IsInvalidSize
  split_ifs <;> simp <;> omega

/-! ### Influence of `data[7]` on the output (C7)

The pair of inputs agrees everywhere except at index 7; the lemmas below track
how far that one byte can propagate through the generator. -/

section GateSeven

variable {dA dB : List Nat}

theorem getElem?_congr_of_agree (hL : dA.length = dB.length)
    (hag : ∀ k, k ≠ 7 → dA.getD k 0 = dB.getD k 0) :
    ∀ k, k ≠ 7 → dA[k]? = dB[k]? := by
  intro k hk
  by_cases h : k < dA.length
  · rw [getElem?_eq_some_getD dA k h, getElem?_eq_some_getD dB k (by omega),
      hag k hk]
  · rw [List.getElem?_eq_none (by omega), List.getElem?_eq_none (by omega)]

theorem drop_congr_of_agree (hL : dA.length = dB.length)
    (hag : ∀ k, k ≠ 7 → dA.getD k 0 = dB.getD k 0) (c : Nat) (hc : 8 ≤ c) :
    dA.drop c = dB.drop c := by
  apply List.ext_getElem?
  intro i
  rw [List.getElem?_drop, List.getElem?_drop]
  exact getElem?_congr_of_agree hL hag (c + i) (by omega)

theorem dsOff_congr (hL : dA.length = dB.length) (off : Nat) :
    dsOff dA off = dsOff dB off := by
  unfold dsOff; rw [hL]

theorem recOff_congr (hL : dA.length = dB.length) (off : Nat) :
    recOff dA off = recOff dB off := by
  unfold recOff; rw [dsOff_congr hL, hL]

theorem lenOff_congr (hL : dA.length = dB.length) (off : Nat) :
    lenOff dA off = lenOff dB off := by
  unfold lenOff; rw [recOff_congr hL, hL]

theorem derivedLength_congr (hL : dA.length = dB.length)
    (hag : ∀ k, k ≠ 7 → dA.getD k 0 = dB.getD k 0) (off : Nat) (hoff : 8 ≤ off) :
    derivedLength dA off = derivedLength dB off := by
  have h1 := le_recOff dA off
  unfold derivedLength
  rw [recOff_congr hL, hL,
    hag (recOff dB off) (by rw [← recOff_congr hL]; omega),
    hag (recOff dB off + 1) (by rw [← recOff_congr hL]; omega)]

theorem recLength_congr (hL : dA.length = dB.length)
    (hag : ∀ k, k ≠ 7 → dA.getD k 0 = dB.getD k 0) (i off : Nat) (hoff : 8 ≤ off) :
    recLength dA i off = recLength dB i off := by
  unfold recLength
  rw [derivedLength_congr hL hag off hoff, hL, hag 3 (by omega)]

theorem recActual_congr (hL : dA.length = dB.length)
    (hag : ∀ k, k ≠ 7 → dA.getD k 0 = dB.getD k 0) (i off : Nat) (hoff : 8 ≤ off) :
    recActual dA i off = recActual dB i off := by
  unfold recActual
  rw [recLength_congr hL hag i off hoff, hL, lenOff_congr hL]

theorem emitRecord_congr (hL : dA.length = dB.length)
    (hag : ∀ k, k ≠ 7 → dA.getD k 0 = dB.getD k 0) (i off : Nat) (hoff : 8 ≤ off) :
    emitRecord dA i off = emitRecord dB i off := by
  have h1 := le_dsOff dA off
  have h2 := le_lenOff dA off
  unfold emitRecord datasetByte recordByte recPayload recPadding
  rw [recLength_congr hL hag i off hoff, recActual_congr hL hag i off hoff,
    lenOff_congr hL, dsOff_congr hL, hL,
    hag off (by omega),
    hag (dsOff dB off) (by rw [← dsOff_congr hL]; omega),
    drop_congr_of_agree hL hag (lenOff dB off) (by rw [← lenOff_congr hL]; omega)]

theorem mainLoopAux_congr (hL : dA.length = dB.length)
    (hag : ∀ k, k ≠ 7 → dA.getD k 0 = dB.getD k 0) :
    ∀ (fuel i off : Nat), 8 ≤ off →
      mainLoopAux dA fuel i off = mainLoopAux dB fuel i off := by
  intro fuel
  induction fuel with
  | zero => intro i off _; rfl
  | succ fuel ih =>
    intro i off hoff
    by_cases hlt : off < dA.length
    · rw [mainLoopAux, mainLoopAux, if_pos hlt, if_pos (by omega)]
      have he := emitRecord_congr hL hag i off hoff
      have hnext := ih (i + 1) (emitRecord dB i off).2
        (le_trans hoff (emitRecord_le_snd dB i off))
      simp only [he, hnext]
    · rw [mainLoopAux, mainLoopAux, if_neg hlt, if_neg (by omega)]

theorem numRecords_congr (hL : dA.length = dB.length)
    (hag : ∀ k, k ≠ 7 → dA.getD k 0 = dB.getD k 0) :
    numRecords dA = numRecords dB := by
  unfold numRecords
  rw [hL, hag 0 (by omega)]

theorem gate1_congr (hL : dA.length = dB.length)
    (hag : ∀ k, k ≠ 7 → dA.getD k 0 = dB.getD k 0) (off : Nat) (hoff : 8 ≤ off) :
    gate1 dA off = gate1 dB off := by
  unfold gate1
  rw [hL, hag 4 (by omega), drop_congr_of_agree hL hag off hoff]

theorem gate2_congr (hL : dA.length = dB.length)
    (hag : ∀ k, k ≠ 7 → dA.getD k 0 = dB.getD k 0) (off : Nat) (hoff : 8 ≤ off) :
    gate2 dA off = gate2 dB off := by
  unfold gate2
  rw [hL, hag 5 (by omega), drop_congr_of_agree hL hag off hoff]

theorem gate3_congr (hL : dA.length = dB.length)
    (hag : ∀ k, k ≠ 7 → dA.getD k 0 = dB.getD k 0) (off : Nat) (hoff : 8 ≤ off) :
    gate3 dA off = gate3 dB off := by
  unfold gate3
  rw [hL, hag 6 (by omega), drop_congr_of_agree hL hag off hoff]

theorem gate1_le_snd (data : List Nat) (off : Nat) : off ≤ (gate1 data off).2 := by
  unfold gate1; split <;> simp

theorem gate2_le_snd (data : List Nat) (off : Nat) : off ≤ (gate2 data off).2 := by
  unfold gate2; split <;> simp

theorem gate3_le_snd (data : List Nat) (off : Nat) : off ≤ (gate3 data off).2 := by
  unfold gate3; split <;> simp

theorem getElem?_cons_add_five (a b c d e : Nat) (l : List Nat) (j : Nat) :
    (a :: b :: c :: d :: e :: l)[j + 5]? = l[j]? := by
  rw [show j + 5 = (j + 4) + 1 from by omega, List.getElem?_cons_succ,
    show j + 4 = (j + 3) + 1 from by omega, List.getElem?_cons_succ,
    show j + 3 = (j + 2) + 1 from by omega, List.getElem?_cons_succ,
    show j + 2 = (j + 1) + 1 from by omega, List.getElem?_cons_succ,
    List.getElem?_cons_succ]

theorem append_getElem?_congr {l1 l2 r1 r2 : List Nat}
    (hl : l1.length = l2.length) (hr : r1 = r2) (m : Nat)
    (hm : l1[m]? = l2[m]?) : (l1 ++ r1)[m]? = (l2 ++ r2)[m]? := by
  by_cases h : m < l1.length
  · rw [List.getElem?_append_left h, List.getElem?_append_left (by omega), hm]
  · rw [List.getElem?_append_right (by omega), List.getElem?_append_right (by omega),
      hl, hr]

theorem dsOff_one (data : List Nat) (h : 1 < data.length) : dsOff data 1 = 2 := by
  unfold dsOff; rw [if_pos h]

theorem recOff_one (data : List Nat) (h : 2 < data.length) : recOff data 1 = 3 := by
  unfold recOff
  rw [dsOff_one data (by omega), if_pos (by omega : (2 : Nat) < data.length)]

theorem lenOff_one (data : List Nat) (h : 4 < data.length) : lenOff data 1 = 5 := by
  unfold lenOff
  rw [recOff_one data (by omega), if_pos (by omega : (3 : Nat) + 1 < data.length)]

theorem derivedLength_one (data : List Nat) (h : 4 < data.length) :
    derivedLength data 1 = data.getD 3 0 * 256 + data.getD 4 0 := by
  unfold derivedLength
  rw [recOff_one data (by omega), if_pos (by omega : (3 : Nat) + 1 < data.length)]

theorem recLength_one_ge (data : List Nat) (h8 : 8 < data.length) :
    768 ≤ recLength data 0 1 := by
  have hder := derivedLength_one data (by omega)
  unfold recLength
  rw [if_pos ⟨rfl, by omega⟩]
  split_ifs with h0 h1 h2
  · omega
  · omega
  · omega
  · rw [hder]
    have hm : data.getD 3 0 % 4 = 3 := by omega
    have h3 : 3 ≤ data.getD 3 0 := by omega
    omega

theorem recActual_one_ge (data : List Nat) (h8 : 8 < data.length) :
    3 ≤ recActual data 0 1 := by
  have h1 := recLength_one_ge data h8
  unfold recActual
  rw [lenOff_one data (by omega)]
  omega

theorem recLength_one_congr (hL : dA.length = dB.length)
    (hag : ∀ k, k ≠ 7 → dA.getD k 0 = dB.getD k 0) (h8 : 8 < dA.length) :
    recLength dA 0 1 = recLength dB 0 1 := by
  have h3 := hag 3 (by omega)
  have hd : derivedLength dA 1 = derivedLength dB 1 := by
    rw [derivedLength_one dA (by omega), derivedLength_one dB (by omega), h3,
      hag 4 (by omega)]
  unfold recLength
  rw [h3, hd, hL]

theorem recActual_one_congr (hL : dA.length = dB.length)
    (hag : ∀ k, k ≠ 7 → dA.getD k 0 = dB.getD k 0) (h8 : 8 < dA.length) :
    recActual dA 0 1 = recActual dB 0 1 := by
  unfold recActual
  rw [recLength_one_congr hL hag h8, hL, lenOff_congr hL]

theorem recPayload_one_rel (hL : dA.length = dB.length)
    (hag : ∀ k, k ≠ 7 → dA.getD k 0 = dB.getD k 0) (h8 : 8 < dA.length) :
    (recPayload dA 0 1).length = (recPayload dB 0 1).length ∧
    (∀ k, k ≠ 2 → (recPayload dA 0 1)[k]? = (recPayload dB 0 1)[k]?) ∧
    (recPayload dA 0 1)[2]? = dA[7]? ∧
    (recPayload dB 0 1)[2]? = dB[7]? := by
  have hac := recActual_one_congr hL hag h8
  have ha3A := recActual_one_ge dA h8
  have ha3B := recActual_one_ge dB (by omega)
  refine ⟨?_, ?_, ?_, ?_⟩
  · rw [recPayload_length, recPayload_length, hac]
  · intro k hk
    unfold recPayload
    rw [lenOff_one dA (by omega), lenOff_one dB (by omega), hac]
    by_cases hk2 : k < recActual dB 0 1
    · rw [List.getElem?_take_of_lt hk2, List.getElem?_take_of_lt hk2,
        List.getElem?_drop, List.getElem?_drop]
      exact getElem?_congr_of_agree hL hag (5 + k) (by omega)
    · rw [List.getElem?_eq_none
          (by simp only [List.length_take, List.length_drop]; omega),
        List.getElem?_eq_none
          (by simp only [List.length_take, List.length_drop]; omega)]
  · unfold recPayload
    rw [lenOff_one dA (by omega),
      List.getElem?_take_of_lt (by omega : 2 < recActual dA 0 1),
      List.getElem?_drop]
  · unfold recPayload
    rw [lenOff_one dB (by omega),
      List.getElem?_take_of_lt (by omega : 2 < recActual dB 0 1),
      List.getElem?_drop]

theorem recPadding_one_congr (hL : dA.length = dB.length)
    (hag : ∀ k, k ≠ 7 → dA.getD k 0 = dB.getD k 0) (h8 : 8 < dA.length) :
    recPadding dA 0 1 = recPadding dB 0 1 := by
  unfold recPadding
  rw [recActual_one_congr hL hag h8, recLength_one_congr hL hag h8]

theorem emitRecord_one_rel (hL : dA.length = dB.length)
    (hag : ∀ k, k ≠ 7 → dA.getD k 0 = dB.getD k 0) (h8 : 8 < dA.length) :
    (emitRecord dA 0 1).1.length = (emitRecord dB 0 1).1.length ∧
    (∀ k, k ≠ 7 → (emitRecord dA 0 1).1[k]? = (emitRecord dB 0 1).1[k]?) ∧
    (emitRecord dA 0 1).1[7]? = dA[7]? ∧
    (emitRecord dB 0 1).1[7]? = dB[7]? ∧
    (emitRecord dA 0 1).2 = (emitRecord dB 0 1).2 := by
  obtain ⟨hplen, hpk, hp7A, hp7B⟩ := recPayload_one_rel hL hag h8
  have hpad := recPadding_one_congr hL hag h8
  have hds : datasetByte dA 1 = datasetByte dB 1 := by
    unfold datasetByte; rw [hL, hag 1 (by omega)]
  have hrb : recordByte dA 1 = recordByte dB 1 := by
    unfold recordByte
    rw [dsOff_one dA (by omega), dsOff_one dB (by omega), hL, hag 2 (by omega)]
  have hrl := recLength_one_congr hL hag h8
  have hpay2A : 2 < (recPayload dA 0 1).length := by
    rw [recPayload_length]
    have := recActual_one_ge dA h8
    omega
  refine ⟨?_, ?_, ?_, ?_, ?_⟩
  · rw [emitRecord_length, emitRecord_length, hrl]
  · intro k hk
    simp only [emitRecord]
    by_cases hk5 : k < 5
    · interval_cases k <;> simp [hds, hrb, hrl]
    · rw [show k = (k - 5) + 5 from by omega, getElem?_cons_add_five,
        getElem?_cons_add_five]
      exact append_getElem?_congr hplen hpad (k - 5) (hpk (k - 5) (by omega))
  · simp only [emitRecord]
    rw [show (7 : Nat) = 2 + 5 from by omega, getElem?_cons_add_five,
      List.getElem?_append_left hpay2A]
    exact hp7A
  · simp only [emitRecord]
    rw [show (7 : Nat) = 2 + 5 from by omega, getElem?_cons_add_five,
      List.getElem?_append_left (by omega : 2 < (recPayload dB 0 1).length)]
    exact hp7B
  · simp only [emitRecord]
    rw [lenOff_one dA (by omega), lenOff_one dB (by omega),
      recActual_one_congr hL hag h8]

theorem mainLoop_rel (hL : dA.length = dB.length)
    (hag : ∀ k, k ≠ 7 → dA.getD k 0 = dB.getD k 0) (h8 : 8 < dA.length) :
    (mainLoopRecords dA).2 = (mainLoopRecords dB).2 ∧
    (mainLoopBytes dA).length = (mainLoopBytes dB).length ∧
    (∀ k, k ≠ 7 → (mainLoopBytes dA)[k]? = (mainLoopBytes dB)[k]?) ∧
    (mainLoopBytes dA)[7]? = dA[7]? ∧
    (mainLoopBytes dB)[7]? = dB[7]? ∧
    8 ≤ (mainLoopRecords dA).2 := by
  obtain ⟨hblen, hbk, hb7A, hb7B, hbcur⟩ := emitRecord_one_rel hL hag h8
  obtain ⟨n, hn⟩ := numRecords_pos dA
  have hnB : numRecords dB = n + 1 := by rw [← numRecords_congr hL hag, hn]
  have hoff1A : 8 ≤ (emitRecord dA 0 1).2 := by
    have := recActual_one_ge dA h8
    simp only [emitRecord]
    rw [lenOff_one dA (by omega)]
    omega
  have hoff1B : 8 ≤ (emitRecord dB 0 1).2 := hbcur ▸ hoff1A
  have hrest : mainLoopAux dA n 1 (emitRecord dA 0 1).2
      = mainLoopAux dB n 1 (emitRecord dB 0 1).2 := by
    rw [hbcur]
    exact mainLoopAux_congr hL hag n 1 _ hoff1B
  have hRA : mainLoopRecords dA
      = ((0, 1, (emitRecord dA 0 1).1)
            :: (mainLoopAux dA n 1 (emitRecord dA 0 1).2).1,
          (mainLoopAux dA n 1 (emitRecord dA 0 1).2).2) := by
    unfold mainLoopRecords
    rw [hn, mainLoopAux, if_pos (by omega : 1 < dA.length)]
  have hRB : mainLoopRecords dB
      = ((0, 1, (emitRecord dB 0 1).1)
            :: (mainLoopAux dB n 1 (emitRecord dB 0 1).2).1,
          (mainLoopAux dB n 1 (emitRecord dB 0 1).2).2) := by
    unfold mainLoopRecords
    rw [hnB, mainLoopAux, if_pos (by omega : 1 < dB.length)]
  have hMBA : mainLoopBytes dA = (emitRecord dA 0 1).1
      ++ ((mainLoopAux dA n 1 (emitRecord dA 0 1).2).1.map (fun r => r.2.2)).flatten := by
    unfold mainLoopBytes
    rw [hRA]
    rfl
  have hMBB : mainLoopBytes dB = (emitRecord dB 0 1).1
      ++ ((mainLoopAux dB n 1 (emitRecord dB 0 1).2).1.map (fun r => r.2.2)).flatten := by
    unfold mainLoopBytes
    rw [hRB]
    rfl
  have h7blk : (7 : Nat) < (emitRecord dA 0 1).1.length := by
    rw [emitRecord_length]
    have := recLength_one_ge dA h8
    omega
  have h7blkB : (7 : Nat) < (emitRecord dB 0 1).1.length := by
    rw [emitRecord_length]
    have := recLength_one_ge dB (by omega)
    omega
  refine ⟨?_, ?_, ?_, ?_, ?_, ?_⟩
  · rw [hRA, hRB, hrest]
  · rw [hMBA, hMBB, hrest]
    simp only [List.length_append, hblen]
  · intro k hk
    rw [hMBA, hMBB]
    exact append_getElem?_congr hblen (by rw [hrest]) k (hbk k hk)
  · rw [hMBA, List.getElem?_append_left h7blk]
    exact hb7A
  · rw [hMBB, List.getElem?_append_left h7blkB]
    exact hb7B
  · rw [hRA]
    exact le_trans hoff1A (mainLoopAux_le_snd dA n 1 _)

theorem gate4_empty_iff (data : List Nat) (off : Nat) (h8 : 8 < data.length) :
    ((gate4 data off).1 = [] ↔ ¬data.getD 7 0 % 4 = 3) := by
  unfold gate4
  split_ifs with h
  · exact iff_of_false id (not_not_intro h.2)
  · exact iff_of_true rfl (fun hc => h ⟨h8, hc⟩)

theorem gate4_fire_congr (hL : dA.length = dB.length)
    (hag : ∀ k, k ≠ 7 → dA.getD k 0 = dB.getD k 0) (off : Nat) (hoff : 8 ≤ off)
    (h8 : 8 < dA.length) (hA : dA.getD 7 0 % 4 = 3) (hB : dB.getD 7 0 % 4 = 3) :
    (gate4 dA off).1 = (gate4 dB off).1 := by
  unfold gate4
  rw [if_pos ⟨h8, hA⟩, if_pos ⟨by omega, hB⟩,
    drop_congr_of_agree hL hag off hoff]

end GateSeven

/-- **C7 (counterexample).** The inputs `[0,0,0,3,0,0,0,3,0]` and
`[0,0,0,3,0,0,0,7,0]` have equal size 9, agree on `data[0..6]` and from index
8 on, and differ only in `data[7]` — yet the bytes produced by the main record
loop are NOT identical (the first record's payload copies `data[7]` verbatim
to output position 7), refuting the claim that only the sentinel-flooding
suffix can change. -/
theorem data7_influence_cex :
    mainLoopBytes [0, 0, 0, 3, 0, 0, 0, 3, 0]
      ≠ mainLoopBytes [0, 0, 0, 3, 0, 0, 0, 7, 0] := by decide

/-- **C7 (amended).** For every pair of inputs of equal size > 8 that agree
everywhere except at index 7, the generator's outputs agree except in exactly
two places: the main-loop bytes agree at every position other than 7, while
position 7 copies each input's own `data[7]`; the main-loop cursor and the
first three supplementary injections are identical; and the sentinel-flooding
suffix is present for an input iff its `data[7] mod 4 = 3`, with identical
suffix bytes whenever it is present for both. -/
theorem data7_influence (dA dB : List Nat) (hL : dA.length = dB.length)
    (h8 : 8 < dA.length) (hag : ∀ k, k ≠ 7 → dA.getD k 0 = dB.getD k 0) :
    (mainLoopBytes dA).length = (mainLoopBytes dB).length ∧
    (∀ k, k ≠ 7 → (mainLoopBytes dA)[k]? = (mainLoopBytes dB)[k]?) ∧
    (mainLoopBytes dA)[7]? = dA[7]? ∧
    (mainLoopBytes dB)[7]? = dB[7]? ∧
    (mainLoopRecords dA).2 = (mainLoopRecords dB).2 ∧
    gate1 dA (mainLoopRecords dA).2 = gate1 dB (mainLoopRecords dB).2 ∧
    gate2 dA (gate1 dA (mainLoopRecords dA).2).2
      = gate2 dB (gate1 dB (mainLoopRecords dB).2).2 ∧
    gate3 dA (gate2 dA (gate1 dA (mainLoopRecords dA).2).2).2
      = gate3 dB (gate2 dB (gate1 dB (mainLoopRecords dB).2).2).2 ∧
    ((gate4 dA (gate3 dA (gate2 dA (gate1 dA (mainLoopRecords dA).2).2).2).2).1 = []
        ↔ ¬dA.getD 7 0 % 4 = 3) ∧
    ((gate4 dB (gate3 dB (gate2 dB (gate1 dB (mainLoopRecords dB).2).2).2).2).1 = []
        ↔ ¬dB.getD 7 0 % 4 = 3) ∧
    (dA.getD 7 0 % 4 = 3 → dB.getD 7 0 % 4 = 3 →
      (gate4 dA (gate3 dA (gate2 dA (gate1 dA (mainLoopRecords dA).2).2).2).2).1
        = (gate4 dB (gate3 dB (gate2 dB (gate1 dB (mainLoopRecords dB).2).2).2).2).1) := by
  obtain ⟨hcur, hlen, hks, h7A, h7B, h8c⟩ := mainLoop_rel hL hag h8
  have hg1 := gate1_congr hL hag (mainLoopRecords dA).2 h8c
  have h8g1 : 8 ≤ (gate1 dA (mainLoopRecords dA).2).2 :=
    le_trans h8c (gate1_le_snd _ _)
  have hg2 := gate2_congr hL hag (gate1 dA (mainLoopRecords dA).2).2 h8g1
  have h8g2 : 8 ≤ (gate2 dA (gate1 dA (mainLoopRecords dA).2).2).2 :=
    le_trans h8g1 (gate2_le_snd _ _)
  have hg3 := gate3_congr hL hag
    (gate2 dA (gate1 dA (mainLoopRecords dA).2).2).2 h8g2
  have h8g3 : 8 ≤ (gate3 dA (gate2 dA (gate1 dA (mainLoopRecords dA).2).2).2).2 :=
    le_trans h8g2 (gate3_le_snd _ _)
  rw [← hcur, ← hg1, ← hg2, ← hg3]
  exact ⟨hlen, hks, h7A, h7B, rfl, rfl, rfl, rfl,
    gate4_empty_iff dA _ h8, gate4_empty_iff dB _ (by omega),
    fun hA hB => gate4_fire_congr hL hag _ h8g3 h8 hA hB⟩

/-- Witness for the amended C7 at the counterexample pair: position 7 of the
first input's main-loop output indeed copies its `data[7]`. -/
theorem data7_influence_witness :
    ([0, 0, 0, 3, 0, 0, 0, 3, 0] : List Nat).length
        = ([0, 0, 0, 3, 0, 0, 0, 7, 0] : List Nat).length ∧
    8 < ([0, 0, 0, 3, 0, 0, 0, 3, 0] : List Nat).length ∧
    (mainLoopBytes [0, 0, 0, 3, 0, 0, 0, 3, 0])[7]?
      = ([0, 0, 0, 3, 0, 0, 0, 3, 0] : List Nat)[7]? := by
  refine ⟨by decide, by decide, ?_⟩
  have hag : ∀ k, k ≠ 7 → ([0, 0, 0, 3, 0, 0, 0, 3, 0] : List Nat).getD k 0
      = ([0, 0, 0, 3, 0, 0, 0, 7, 0] : List Nat).getD k 0 := by
    intro k hk
    by_cases h9 : k < 9
    · interval_cases k <;> first | rfl | exact absurd rfl hk
    · rw [List.getD_eq_getElem?_getD, List.getD_eq_getElem?_getD,
        List.getElem?_eq_none (by simp only [List.length_cons, List.length_nil]; omega),
        List.getElem?_eq_none (by simp only [List.length_cons, List.length_nil]; omega)]
  exact (data7_influence [0, 0, 0, 3, 0, 0, 0, 3, 0] [0, 0, 0, 3, 0, 0, 0, 7, 0]
    (by decide) (by decide) hag).2.2.1

end IPTCFuzz
